import Mathlib

/-!
Shallow embedding of the worksheet layout engine of `mathtest`
(`src/mathtest/output/pdf.py`), together with theorems checking the
natural-language specification of the repository against the code.

Real-number quantities of the Python code are modelled as rationals, so all
layout arithmetic is exact and executable.  Fallible code becomes `Except`.
The packing loop's nested closures (`advance_row`, `start_new_page`) become
explicit state-passing functions on a `PackState` record.
-/

namespace Mathtest

/-- `FLOAT_TOLERANCE = 1e-9` from the source module constants. -/
def FLOAT_TOLERANCE : ℚ := 1 / 1000000000

/-- `POINTS_PER_INCH = 72.0`. -/
def POINTS_PER_INCH : ℚ := 72

/-- `LETTER_PAGE_WIDTH = 612.0`. -/
def LETTER_PAGE_WIDTH : ℚ := 612

/-- `LETTER_PAGE_HEIGHT = 792.0`. -/
def LETTER_PAGE_HEIGHT : ℚ := 792

/-- `MIN_HEADER_LABEL_FONT_SIZE = 10.0`. -/
def MIN_HEADER_LABEL_FONT_SIZE : ℚ := 10

/-- `HEADER_SPACING_MULTIPLIER = 1.6`. -/
def HEADER_SPACING_MULTIPLIER : ℚ := 8 / 5

/-- The validated configuration `PdfOutputParams` (the `path` and font-name
fields play no role in layout and are omitted). -/
structure PdfOutputParams where
  title : String := "Math Test"
  margin_inches : ℚ := 3 / 4
  problem_spacing_inches : ℚ := 7 / 20
  answers_on_new_page : Bool := true
  include_answers : Bool := false
  answer_title : String := "Answer Key"
  include_student_header : Bool := true
  title_font_size : ℚ := 20
  answer_font_size : ℚ := 12
  columns : ℕ := 4
  column_spacing_inches : ℚ := 1 / 4
deriving DecidableEq

/-- `PdfOutputParams.margin`: margin converted to points. -/
def PdfOutputParams.margin (c : PdfOutputParams) : ℚ :=
  c.margin_inches * POINTS_PER_INCH

/-- `PdfOutputParams.problem_spacing`: problem spacing converted to points. -/
def PdfOutputParams.problem_spacing (c : PdfOutputParams) : ℚ :=
  c.problem_spacing_inches * POINTS_PER_INCH

/-- `PdfOutputParams.column_spacing`: column spacing converted to points. -/
def PdfOutputParams.column_spacing (c : PdfOutputParams) : ℚ :=
  c.column_spacing_inches * POINTS_PER_INCH

/-- `content_width = page_width - 2 * margin`. -/
def contentWidth (c : PdfOutputParams) : ℚ :=
  LETTER_PAGE_WIDTH - 2 * c.margin

/-- `total_spacing = column_spacing * (columns - 1)`. -/
def totalSpacing (c : PdfOutputParams) : ℚ :=
  c.column_spacing * ((c.columns : ℚ) - 1)

/-- `available_width = content_width - total_spacing`. -/
def availableWidth (c : PdfOutputParams) : ℚ :=
  contentWidth c - totalSpacing c

/-- `column_width = available_width / columns`. -/
def columnWidth (c : PdfOutputParams) : ℚ :=
  availableWidth c / (c.columns : ℚ)

/-- `column_offsets[i] = margin + i * (column_width + column_spacing)`. -/
def columnOffset (c : PdfOutputParams) (i : ℕ) : ℚ :=
  c.margin + (i : ℚ) * (columnWidth c + c.column_spacing)

/-- `_title_block_height`: vertical space consumed by the title and the
optional student header. -/
def titleBlockHeight (c : PdfOutputParams) : ℚ :=
  let h := c.title_font_size * (3 / 2)
  if c.include_student_header then
    h + max c.title_font_size MIN_HEADER_LABEL_FONT_SIZE * HEADER_SPACING_MULTIPLIER
  else h

/-- `_page_initial_row_top`: top coordinate of the first row on a page,
below the margin and (when a title is configured) the title block. -/
def pageInitialTop (c : PdfOutputParams) : ℚ :=
  let top := LETTER_PAGE_HEIGHT - c.margin
  if c.title = "" then top else top - titleBlockHeight c

/-- The pydantic field constraints of `PdfOutputParams`, together with the
two run-time width checks `generate` performs before layout. -/
def PdfOutputParams.Valid (c : PdfOutputParams) : Prop :=
  0 < c.margin_inches ∧ 0 ≤ c.problem_spacing_inches ∧
    0 ≤ c.column_spacing_inches ∧ 1 ≤ c.columns ∧ 8 ≤ c.title_font_size ∧
    6 ≤ c.answer_font_size ∧ 0 < contentWidth c ∧ 0 < availableWidth c

instance (c : PdfOutputParams) : Decidable c.Valid := by
  unfold PdfOutputParams.Valid
  infer_instance

/-- `_SvgGeometry`: the intrinsic width/height extracted from a problem's
SVG markup. -/
structure SvgGeometry where
  width : ℚ
  height : ℚ
deriving DecidableEq

/-- `_PreparedProblem`: an element after scale normalization (the parsed SVG
tree is irrelevant to layout and omitted). -/
structure PreparedProblem where
  geometry : SvgGeometry
  scale : ℚ
  scaled_height : ℚ
  scaled_width : ℚ
deriving DecidableEq

/-- `_Placement`: drawing metadata for a problem positioned within a row. -/
structure Placement where
  prepared : PreparedProblem
  column_index : ℕ
  x_offset : ℚ
  top : ℚ
deriving DecidableEq

/-- `_RowLayout`: problems sharing a common top coordinate on a page. -/
structure RowLayout where
  top : ℚ
  height : ℚ
  placements : List Placement
deriving DecidableEq

/-- `_PageLayout`: the rows scheduled to render on one page. -/
structure PageLayout where
  rows : List RowLayout
deriving DecidableEq

/-- The fatal errors `generate` can raise before drawing anything. -/
inductive LayoutError where
  | noProblems
  | invalidConfig
  | invalidGeometry
  | elementTooTall
deriving DecidableEq

instance {ε α : Type} [DecidableEq ε] [DecidableEq α] :
    DecidableEq (Except ε α) := fun x y =>
  match x, y with
  | Except.error e, Except.error f =>
    if h : e = f then isTrue (by rw [h])
    else isFalse (by intro hh; cases hh; exact h rfl)
  | Except.error _, Except.ok _ => isFalse (by intro hh; cases hh)
  | Except.ok _, Except.error _ => isFalse (by intro hh; cases hh)
  | Except.ok a, Except.ok b =>
    if h : a = b then isTrue (by rw [h])
    else isFalse (by intro hh; cases hh; exact h rfl)

/-- The geometry-normalization step of `generate`'s preparation loop:
reject non-positive widths, otherwise scale to the column width. -/
def prepareProblem (column_width : ℚ) (g : SvgGeometry) :
    Except LayoutError PreparedProblem :=
  if g.width ≤ 0 then Except.error LayoutError.invalidGeometry
  else
    let scale := column_width / g.width
    Except.ok
      { geometry := g, scale := scale, scaled_height := g.height * scale,
        scaled_width := column_width }

/-- The preparation loop over all problems, stopping at the first error. -/
def prepareAll (column_width : ℚ) :
    List SvgGeometry → Except LayoutError (List PreparedProblem)
  | [] => Except.ok []
  | g :: rest =>
    match prepareProblem column_width g with
    | Except.error e => Except.error e
    | Except.ok p =>
      match prepareAll column_width rest with
      | Except.error e => Except.error e
      | Except.ok ps => Except.ok (p :: ps)

/-- The mutable packing state of `generate`'s layout loop.  The source keeps
the open row as a `_RowLayout` object whose `top` always equals
`current_row_top`; here the open row is its placement list plus the two
scalar accumulators. -/
structure PackState where
  pages : List PageLayout
  currentPageRows : List RowLayout
  currentRowTop : ℚ
  currentRowPlacements : List Placement
  currentRowHeight : ℚ
  currentColumn : ℕ
deriving DecidableEq

/-- The packing state before the first element is processed. -/
def initState (c : PdfOutputParams) : PackState :=
  { pages := [], currentPageRows := [], currentRowTop := pageInitialTop c,
    currentRowPlacements := [], currentRowHeight := 0, currentColumn := 0 }

/-- The nested `advance_row` closure: close a non-empty open row and start a
fresh one below it. -/
def advanceRow (c : PdfOutputParams) (st : PackState) : PackState :=
  match st.currentRowPlacements with
  | [] => { st with currentRowHeight := 0, currentColumn := 0 }
  | _ :: _ =>
    { st with
      currentPageRows := st.currentPageRows ++
        [{ top := st.currentRowTop, height := st.currentRowHeight,
           placements := st.currentRowPlacements }],
      currentRowTop :=
        st.currentRowTop - (st.currentRowHeight + c.problem_spacing),
      currentRowPlacements := [], currentRowHeight := 0, currentColumn := 0 }

/-- The rows of the open page after flushing a non-empty open row. -/
def flushRows (st : PackState) : List RowLayout :=
  match st.currentRowPlacements with
  | [] => st.currentPageRows
  | _ :: _ =>
    st.currentPageRows ++
      [{ top := st.currentRowTop, height := st.currentRowHeight,
         placements := st.currentRowPlacements }]

/-- The closed pages after flushing the open row and (when non-empty) the
open page, as done by `start_new_page` and by the loop epilogue. -/
def flushPages (st : PackState) : List PageLayout :=
  match flushRows st with
  | [] => st.pages
  | r :: rs => st.pages ++ [{ rows := r :: rs }]

/-- The nested `start_new_page` closure. -/
def startNewPage (c : PdfOutputParams) (st : PackState) : PackState :=
  { pages := flushPages st, currentPageRows := [],
    currentRowTop := pageInitialTop c, currentRowPlacements := [],
    currentRowHeight := 0, currentColumn := 0 }

/-- The placement step at the end of the loop body: compute the x offset
(right-aligning any leftover width) and append the placement. -/
def placeElement (c : PdfOutputParams) (st : PackState) (p : PreparedProblem) :
    PackState :=
  let remaining := columnWidth c - p.scaled_width
  let remaining := if |remaining| ≤ FLOAT_TOLERANCE then 0 else remaining
  let x := columnOffset c st.currentColumn + max 0 remaining
  { st with
    currentRowPlacements := st.currentRowPlacements ++
      [{ prepared := p, column_index := st.currentColumn, x_offset := x,
         top := st.currentRowTop }],
    currentRowHeight := max st.currentRowHeight p.scaled_height,
    currentColumn := st.currentColumn + 1 }

/-- First guard of the loop body: close the row when every column is
filled. -/
def packResolve1 (c : PdfOutputParams) (st : PackState) : PackState :=
  if c.columns ≤ st.currentColumn then advanceRow c st else st

/-- Second guard: close a partly filled row under which the element would
cross the bottom margin. -/
def packResolve2 (c : PdfOutputParams) (st : PackState) (h : ℚ) : PackState :=
  if st.currentRowTop - h < c.margin ∧ 0 < st.currentRowHeight ∧
      0 < st.currentColumn then
    advanceRow c st
  else st

/-- Third guard: flip to a fresh page when the element still does not fit. -/
def packResolve3 (c : PdfOutputParams) (st : PackState) (h : ℚ) : PackState :=
  if st.currentRowTop - h < c.margin then startNewPage c st else st

/-- The row/page-wrapping decisions at the head of `generate`'s loop body. -/
def packResolve (c : PdfOutputParams) (st : PackState) (h : ℚ) : PackState :=
  packResolve3 c (packResolve2 c (packResolve1 c st) h) h

/-- One iteration of `generate`'s packing loop.  The source indexes
`column_offsets[current_column]`, which is in range because the first branch
resets `current_column` to `0` whenever it has reached `columns`; the
embedding uses the defining formula `columnOffset` directly. -/
def packStep (c : PdfOutputParams) (st : PackState) (p : PreparedProblem) :
    Except LayoutError PackState :=
  if (packResolve c st p.scaled_height).currentRowTop - p.scaled_height <
      c.margin then
    Except.error LayoutError.elementTooTall
  else Except.ok (placeElement c (packResolve c st p.scaled_height) p)

/-- The packing loop over the prepared problems. -/
def packLoop (c : PdfOutputParams) :
    PackState → List PreparedProblem → Except LayoutError PackState
  | st, [] => Except.ok st
  | st, p :: rest =>
    match packStep c st p with
    | Except.error e => Except.error e
    | Except.ok st' => packLoop c st' rest

/-- The whole packing pass: run the loop from the initial state and flush
the remaining open row and page. -/
def packProblems (c : PdfOutputParams) (ps : List PreparedProblem) :
    Except LayoutError (List PageLayout) :=
  match packLoop c (initState c) ps with
  | Except.error e => Except.error e
  | Except.ok st => Except.ok (flushPages st)

/-- Shift a row and all its placements downward by `s`. -/
def shiftRow (s : ℚ) (r : RowLayout) : RowLayout :=
  { top := r.top - s, height := r.height,
    placements := r.placements.map fun p => { p with top := p.top - s } }

/-- The `cumulative_shift` loop of the redistribution pass: each successive
row is shifted by one more `gap` than its predecessor. -/
def shiftRowsCumulative (gap : ℚ) : ℚ → List RowLayout → List RowLayout
  | _, [] => []
  | acc, r :: rest =>
    shiftRow (acc + gap) r :: shiftRowsCumulative gap (acc + gap) rest

/-- The vertical-space redistribution pass for one page.  The source binds
`last_row = rows[-1]`, `extra_space = last_row.top - last_row.height -
margin` and `gap_increment = extra_space / (len(rows) - 1)`; those
abbreviations are inlined here (for `rows = first :: rest` the last row is
`rest.getLastD first` and `len(rows) - 1 = rest.length`). -/
def redistributePage (margin : ℚ) (page : PageLayout) : PageLayout :=
  match page.rows with
  | [] => page
  | [first] =>
    if FLOAT_TOLERANCE < first.top - first.height - margin then
      { rows := [shiftRow (first.top - first.height - margin) first] }
    else page
  | first :: second :: rest2 =>
    if FLOAT_TOLERANCE <
        (((second :: rest2).getLastD first).top -
          ((second :: rest2).getLastD first).height - margin) then
      { rows := first :: shiftRowsCumulative
          ((((second :: rest2).getLastD first).top -
            ((second :: rest2).getLastD first).height - margin) /
            ((second :: rest2).length : ℚ)) 0 (second :: rest2) }
    else page

/-- The redistribution pass over all pages. -/
def redistribute (margin : ℚ) (pages : List PageLayout) : List PageLayout :=
  pages.map (redistributePage margin)

/-- The layout portion of `PdfOutputGenerator.generate`: validation checks,
geometry normalization, packing, redistribution.  Drawing is out of scope;
the result is the final placement plan. -/
def generateLayout (c : PdfOutputParams) (gs : List SvgGeometry) :
    Except LayoutError (List PageLayout) :=
  match gs with
  | [] => Except.error LayoutError.noProblems
  | _ :: _ =>
    if contentWidth c ≤ 0 then Except.error LayoutError.invalidConfig
  else if availableWidth c ≤ 0 then Except.error LayoutError.invalidConfig
  else
    match prepareAll (columnWidth c) gs with
    | Except.error e => Except.error e
    | Except.ok ps =>
      match packProblems c ps with
      | Except.error e => Except.error e
      | Except.ok pages => Except.ok (redistribute c.margin pages)

/-- The cursor position `generate` computes after drawing the main content
(the bottom of the very last row, or the initial top when nothing was
placed). -/
def finalCursorY (c : PdfOutputParams) (pages : List PageLayout) : ℚ :=
  match pages.getLast? with
  | none => pageInitialTop c
  | some page =>
    match page.rows.getLast? with
    | none => pageInitialTop c
    | some row => row.top - row.height

/-- The branch condition in `_draw_answers` deciding whether the answer key
starts on a fresh page. -/
def answersStartNewPage (c : PdfOutputParams) (currentY : ℚ) : Bool :=
  c.answers_on_new_page ||
    decide (currentY < c.margin + c.answer_font_size * 2)

/-- All placements of one page, row by row, left to right. -/
def pagePlacements (page : PageLayout) : List Placement :=
  (page.rows.map RowLayout.placements).flatten

/-- All placements of a page list, page by page. -/
def allPlacements (pages : List PageLayout) : List Placement :=
  (pages.map pagePlacements).flatten

/-- All placements recorded in a packing state, in insertion order. -/
def stateFlatten (st : PackState) : List Placement :=
  allPlacements st.pages ++
    (st.currentPageRows.map RowLayout.placements).flatten ++
    st.currentRowPlacements

/-- Look up the placement at page `i`, row `j`, column position `k`. -/
def placementAt (pages : List PageLayout) (i j k : ℕ) : Option Placement := do
  let page ← pages[i]?
  let row ← page.rows[j]?
  row.placements[k]?

/-! ### Concrete configurations used to exercise the theorems -/

/-- A worksheet with no title, a one-inch margin, two columns and zero
spacings. -/
def cfgW1 : PdfOutputParams :=
  { title := "", margin_inches := 1, columns := 2,
    column_spacing_inches := 0, problem_spacing_inches := 0 }

/-- Three square-ish elements; the third is twice as wide. -/
def gsW1 : List SvgGeometry := [⟨1, 1⟩, ⟨1, 1⟩, ⟨2, 1⟩]

/-- The layout `generateLayout cfgW1 gsW1` produces. -/
def pagesW1 : List PageLayout :=
  [⟨[⟨720, 234, [⟨⟨⟨1, 1⟩, 234, 234, 234⟩, 0, 72, 720⟩,
      ⟨⟨⟨1, 1⟩, 234, 234, 234⟩, 1, 306, 720⟩]⟩,
    ⟨189, 117, [⟨⟨⟨2, 1⟩, 117, 117, 234⟩, 0, 72, 189⟩]⟩]⟩]

/-- A single-column worksheet with no title and a one-inch margin. -/
def cfgW4 : PdfOutputParams :=
  { title := "", margin_inches := 1, columns := 1 }

/-- Two wide elements that stack in the single column. -/
def gsW4 : List SvgGeometry := [⟨4, 1⟩, ⟨4, 1⟩]

/-- The layout `generateLayout cfgW4 gsW4` produces. -/
def pagesW4 : List PageLayout :=
  [⟨[⟨720, 117, [⟨⟨⟨4, 1⟩, 117, 117, 468⟩, 0, 72, 720⟩]⟩,
    ⟨189, 117, [⟨⟨⟨4, 1⟩, 117, 117, 468⟩, 0, 72, 189⟩]⟩]⟩]

/-- A configuration that enables the answer key but asks it NOT to start on
a new page. -/
def cfgW9 : PdfOutputParams :=
  { title := "", margin_inches := 1, columns := 1,
    answers_on_new_page := false, include_answers := true }

/-- One wide element. -/
def gsW9 : List SvgGeometry := [⟨4, 1⟩]

/-- The layout `generateLayout cfgW9 gsW9` produces. -/
def pagesW9 : List PageLayout :=
  [⟨[⟨189, 117, [⟨⟨⟨4, 1⟩, 117, 117, 468⟩, 0, 72, 189⟩]⟩]⟩]

/-- A placeholder placement used as the default of `Option.getD`. -/
def defaultPlacement : Placement := ⟨⟨⟨1, 1⟩, 0, 0, 0⟩, 0, 0, 0⟩

/-! ### Well-formedness of rows and pages -/

/-- A later row starts at least `problem_spacing` below the bottom of an
earlier row. -/
def RowSep (c : PdfOutputParams) (a b : RowLayout) : Prop :=
  b.top ≤ a.top - a.height - c.problem_spacing

/-- Invariants of every closed row the packer produces. -/
structure RowWF (c : PdfOutputParams) (r : RowLayout) : Prop where
  tops : ∀ p ∈ r.placements, p.top = r.top
  heights : ∀ p ∈ r.placements, p.prepared.scaled_height ≤ r.height
  height_nonneg : 0 ≤ r.height
  nonempty : r.placements ≠ []
  cols : r.placements.map Placement.column_index =
    List.range r.placements.length
  cols_le : r.placements.length ≤ c.columns
  xoff : ∀ p ∈ r.placements, p.prepared.scaled_width = columnWidth c →
    p.x_offset = columnOffset c p.column_index

/-- Invariants of every page the packer produces. -/
structure PageWF (c : PdfOutputParams) (page : PageLayout) : Prop where
  rows_wf : ∀ r ∈ page.rows, RowWF c r
  sep : page.rows.Pairwise (RowSep c)
  nonempty : page.rows ≠ []

/-! ### The packing invariant -/

/-- The loop invariant of the packing pass: `done` is the list of elements
consumed so far. -/
structure PackInv (c : PdfOutputParams) (done : List PreparedProblem)
    (st : PackState) : Prop where
  pages_wf : ∀ page ∈ st.pages, PageWF c page
  rows_wf : ∀ r ∈ st.currentPageRows, RowWF c r
  rows_sep : st.currentPageRows.Pairwise (RowSep c)
  rows_below : ∀ r ∈ st.currentPageRows,
    st.currentRowTop ≤ r.top - r.height - c.problem_spacing
  open_tops : ∀ p ∈ st.currentRowPlacements, p.top = st.currentRowTop
  open_heights : ∀ p ∈ st.currentRowPlacements,
    p.prepared.scaled_height ≤ st.currentRowHeight
  height_nonneg : 0 ≤ st.currentRowHeight
  top_le : st.currentRowTop ≤ pageInitialTop c
  col_eq : st.currentColumn = st.currentRowPlacements.length
  open_cols : st.currentRowPlacements.map Placement.column_index =
    List.range st.currentRowPlacements.length
  open_le : st.currentRowPlacements.length ≤ c.columns
  open_xoff : ∀ p ∈ st.currentRowPlacements,
    p.prepared.scaled_width = columnWidth c →
    p.x_offset = columnOffset c p.column_index
  flat : (stateFlatten st).map Placement.prepared = done

/-- Everything a placement carries except its `top` coordinate. -/
def Placement.frame (p : Placement) : PreparedProblem × ℕ × ℚ :=
  (p.prepared, p.column_index, p.x_offset)

/-- Everything a row carries except its `top` coordinate. -/
def RowLayout.frame (r : RowLayout) :
    ℚ × List (PreparedProblem × ℕ × ℚ) :=
  (r.height, r.placements.map Placement.frame)

/-- Everything a page carries except the `top` coordinates. -/
def PageLayout.frame (page : PageLayout) :
    List (ℚ × List (PreparedProblem × ℕ × ℚ)) :=
  page.rows.map RowLayout.frame

/-! ### Basic facts about geometry normalization -/

theorem prepareProblem_pos {column_width : ℚ} {g : SvgGeometry}
    (h : 0 < g.width) :
    prepareProblem column_width g = Except.ok
      { geometry := g, scale := column_width / g.width,
        scaled_height := g.height * (column_width / g.width),
        scaled_width := column_width } := by
  unfold prepareProblem
  rw [if_neg (not_le.mpr h)]

theorem prepareAll_map {column_width : ℚ} {gs : List SvgGeometry}
    (h : ∀ g ∈ gs, 0 < g.width) :
    prepareAll column_width gs = Except.ok (gs.map fun g =>
      { geometry := g, scale := column_width / g.width,
        scaled_height := g.height * (column_width / g.width),
        scaled_width := column_width }) := by
  induction gs with
  | nil => rfl
  | cons g rest ih =>
    simp only [List.map_cons]
    unfold prepareAll
    rw [prepareProblem_pos (h g (List.mem_cons_self g rest)),
      ih fun x hx => h x (List.mem_cons_of_mem g hx)]

theorem prepareAll_ok_spec {column_width : ℚ} {gs : List SvgGeometry}
    {ps : List PreparedProblem}
    (h : prepareAll column_width gs = Except.ok ps) :
    ps.map PreparedProblem.geometry = gs ∧
      ∀ p ∈ ps, 0 < p.geometry.width ∧
        p.scale = column_width / p.geometry.width ∧
        p.scaled_height = p.geometry.height * p.scale ∧
        p.scaled_width = column_width := by
  induction gs generalizing ps with
  | nil =>
    unfold prepareAll at h
    cases h
    exact ⟨rfl, by simp⟩
  | cons g rest ih =>
    unfold prepareAll at h
    cases hp : prepareProblem column_width g with
    | error e => rw [hp] at h; cases h
    | ok p =>
      rw [hp] at h
      cases hr : prepareAll column_width rest with
      | error e => rw [hr] at h; cases h
      | ok tail =>
        rw [hr] at h
        cases h
        obtain ⟨ih1, ih2⟩ := ih hr
        unfold prepareProblem at hp
        by_cases hw : g.width ≤ 0
        · rw [if_pos hw] at hp; cases hp
        · rw [if_neg hw] at hp
          cases hp
          refine ⟨by simp [ih1], ?_⟩
          intro q hq
          rcases List.mem_cons.mp hq with h1 | h2
          · subst h1
            exact ⟨not_le.mp hw, rfl, rfl, rfl⟩
          · exact ih2 q h2

theorem packInv_init (c : PdfOutputParams) : PackInv c [] (initState c) := by
  constructor <;> simp [initState, stateFlatten, allPlacements]

theorem advanceRow_currentColumn (c : PdfOutputParams) (st : PackState) :
    (advanceRow c st).currentColumn = 0 := by
  unfold advanceRow; split <;> rfl

theorem advanceRow_open (c : PdfOutputParams) (st : PackState) :
    (advanceRow c st).currentRowPlacements = [] := by
  unfold advanceRow
  split
  · simpa
  · rfl

theorem advanceRow_height (c : PdfOutputParams) (st : PackState) :
    (advanceRow c st).currentRowHeight = 0 := by
  unfold advanceRow; split <;> rfl

theorem advanceRow_pages (c : PdfOutputParams) (st : PackState) :
    (advanceRow c st).pages = st.pages := by
  unfold advanceRow; split <;> rfl

theorem advanceRow_top_le (c : PdfOutputParams) (st : PackState)
    (h0 : 0 ≤ st.currentRowHeight) (hs : 0 ≤ c.problem_spacing) :
    (advanceRow c st).currentRowTop ≤ st.currentRowTop := by
  unfold advanceRow
  split
  · exact le_refl _
  · dsimp only
    linarith

theorem stateFlatten_advanceRow (c : PdfOutputParams) (st : PackState) :
    stateFlatten (advanceRow c st) = stateFlatten st := by
  unfold advanceRow
  split
  · next h => simp [stateFlatten, h]
  · simp [stateFlatten, List.append_assoc]

theorem flushRows_flatten (st : PackState) :
    (List.map RowLayout.placements (flushRows st)).flatten =
      (List.map RowLayout.placements st.currentPageRows).flatten ++
        st.currentRowPlacements := by
  unfold flushRows
  split
  · next h => simp [h]
  · simp

theorem allPlacements_flushPages (st : PackState) :
    allPlacements (flushPages st) = stateFlatten st := by
  unfold flushPages
  split
  · next h =>
    have h2 := flushRows_flatten st
    rw [h] at h2
    simp only [List.map_nil, List.flatten_nil] at h2
    simp [allPlacements, stateFlatten, ← h2]
  · next r rs h =>
    have h2 := flushRows_flatten st
    rw [h] at h2
    simp [allPlacements, stateFlatten, pagePlacements, ← h2,
      List.append_assoc]

theorem stateFlatten_startNewPage (c : PdfOutputParams) (st : PackState) :
    stateFlatten (startNewPage c st) = stateFlatten st := by
  simp [startNewPage, stateFlatten, allPlacements_flushPages st]

theorem stateFlatten_placeElement (c : PdfOutputParams) (st : PackState)
    (p : PreparedProblem) :
    stateFlatten (placeElement c st p) = stateFlatten st ++
      [{ prepared := p, column_index := st.currentColumn,
         x_offset := columnOffset c st.currentColumn +
           max 0 (if |columnWidth c - p.scaled_width| ≤ FLOAT_TOLERANCE then 0
                  else columnWidth c - p.scaled_width),
         top := st.currentRowTop }] := by
  simp [placeElement, stateFlatten, List.append_assoc]

/-- The row flushed by `advance_row` / `start_new_page` is well formed. -/
theorem closedRow_wf {c : PdfOutputParams} {done : List PreparedProblem}
    {st : PackState} (hinv : PackInv c done st)
    (hne : st.currentRowPlacements ≠ []) :
    RowWF c
      { top := st.currentRowTop, height := st.currentRowHeight,
        placements := st.currentRowPlacements } :=
  { tops := hinv.open_tops
    heights := hinv.open_heights
    height_nonneg := hinv.height_nonneg
    nonempty := hne
    cols := hinv.open_cols
    cols_le := hinv.open_le
    xoff := hinv.open_xoff }

theorem advanceRow_inv {c : PdfOutputParams} {done : List PreparedProblem}
    {st : PackState} (hs : 0 ≤ c.problem_spacing)
    (hinv : PackInv c done st) : PackInv c done (advanceRow c st) := by
  unfold advanceRow
  split
  · next h =>
    constructor <;>
      simp only [stateFlatten, h] <;>
      first
      | exact hinv.pages_wf
      | exact hinv.rows_wf
      | exact hinv.rows_sep
      | exact hinv.rows_below
      | exact hinv.top_le
      | simp [← hinv.flat, stateFlatten, h]
  · next hd tl h =>
    have hrow := closedRow_wf hinv (by rw [h]; simp)
    constructor
    · exact hinv.pages_wf
    · intro r hr
      rcases List.mem_append.mp hr with h1 | h2
      · exact hinv.rows_wf r h1
      · rw [List.mem_singleton.mp h2]
        exact hrow
    · rw [List.pairwise_append]
      refine ⟨hinv.rows_sep, List.pairwise_singleton _ _, ?_⟩
      intro a ha b hb
      rw [List.mem_singleton.mp hb]
      exact hinv.rows_below a ha
    · intro r hr
      rcases List.mem_append.mp hr with h1 | h2
      · have := hinv.rows_below r h1
        have h0 := hinv.height_nonneg
        dsimp only
        linarith
      · rw [List.mem_singleton.mp h2]
        dsimp only
        linarith
    · simp
    · simp
    · simp
    · dsimp only
      have h0 := hinv.height_nonneg
      have := hinv.top_le
      linarith
    · simp
    · simp
    · simp
    · simp
    · simpa [stateFlatten, List.append_assoc] using hinv.flat

theorem flushRows_wf {c : PdfOutputParams} {done : List PreparedProblem}
    {st : PackState} (hinv : PackInv c done st) :
    (∀ r ∈ flushRows st, RowWF c r) ∧
      (flushRows st).Pairwise (RowSep c) := by
  unfold flushRows
  split
  · exact ⟨hinv.rows_wf, hinv.rows_sep⟩
  · next hd tl h =>
    have hrow := closedRow_wf hinv (by rw [h]; simp)
    constructor
    · intro r hr
      rcases List.mem_append.mp hr with h1 | h2
      · exact hinv.rows_wf r h1
      · rw [List.mem_singleton.mp h2]
        exact hrow
    · rw [List.pairwise_append]
      refine ⟨hinv.rows_sep, List.pairwise_singleton _ _, ?_⟩
      intro a ha b hb
      rw [List.mem_singleton.mp hb]
      have := hinv.rows_below a ha
      have hs' := hinv.height_nonneg
      unfold RowSep
      dsimp only
      exact this

theorem flushPages_wf {c : PdfOutputParams} {done : List PreparedProblem}
    {st : PackState} (hinv : PackInv c done st) :
    ∀ page ∈ flushPages st, PageWF c page := by
  intro page hp
  unfold flushPages at hp
  split at hp
  · exact hinv.pages_wf page hp
  · next r rs h =>
    rcases List.mem_append.mp hp with h1 | h2
    · exact hinv.pages_wf page h1
    · rw [List.mem_singleton.mp h2]
      obtain ⟨hw, hsep⟩ := flushRows_wf hinv
      refine ⟨?_, ?_, ?_⟩
      · intro row hrow
        exact hw row (by rw [h]; exact hrow)
      · show (r :: rs).Pairwise (RowSep c)
        rw [← h]
        exact hsep
      · exact List.cons_ne_nil r rs

theorem startNewPage_inv {c : PdfOutputParams} {done : List PreparedProblem}
    {st : PackState} (hinv : PackInv c done st) :
    PackInv c done (startNewPage c st) := by
  refine
    { pages_wf := ?_, rows_wf := by simp [startNewPage],
      rows_sep := by simp [startNewPage],
      rows_below := by simp [startNewPage],
      open_tops := by simp [startNewPage],
      open_heights := by simp [startNewPage],
      height_nonneg := le_refl 0,
      top_le := le_refl _,
      col_eq := by simp [startNewPage],
      open_cols := by simp [startNewPage],
      open_le := by simp [startNewPage],
      open_xoff := by simp [startNewPage],
      flat := by rw [stateFlatten_startNewPage]; exact hinv.flat }
  intro page hp
  exact flushPages_wf hinv page hp

theorem placeElement_inv {c : PdfOutputParams} {done : List PreparedProblem}
    {st : PackState} {p : PreparedProblem} (hinv : PackInv c done st)
    (hcol : st.currentColumn < c.columns) :
    PackInv c (done ++ [p]) (placeElement c st p) := by
  have hto : FLOAT_TOLERANCE ≥ 0 := by norm_num [FLOAT_TOLERANCE]
  refine
    { pages_wf := hinv.pages_wf, rows_wf := hinv.rows_wf,
      rows_sep := hinv.rows_sep, rows_below := hinv.rows_below,
      open_tops := ?_, open_heights := ?_, height_nonneg := ?_,
      top_le := hinv.top_le, col_eq := ?_, open_cols := ?_, open_le := ?_,
      open_xoff := ?_, flat := ?_ }
  · intro q hq
    rcases List.mem_append.mp hq with h1 | h2
    · exact hinv.open_tops q h1
    · rw [List.mem_singleton.mp h2]
      rfl
  · intro q hq
    rcases List.mem_append.mp hq with h1 | h2
    · exact le_trans (hinv.open_heights q h1) (le_max_left _ _)
    · rw [List.mem_singleton.mp h2]
      exact le_max_right _ _
  · exact le_trans hinv.height_nonneg (le_max_left _ _)
  · simp [placeElement, hinv.col_eq]
  · simp [placeElement, hinv.open_cols, List.range_succ, hinv.col_eq]
  · simpa [placeElement] using Nat.succ_le_of_lt (hinv.col_eq ▸ hcol)
  · intro q hq
    rcases List.mem_append.mp hq with h1 | h2
    · exact hinv.open_xoff q h1
    · rw [List.mem_singleton.mp h2]
      intro hw
      dsimp only
      rw [hw, sub_self, abs_zero, if_pos hto, max_self, add_zero]
  · rw [stateFlatten_placeElement, List.map_append, hinv.flat]
    rfl

theorem packResolve_inv {c : PdfOutputParams} {done : List PreparedProblem}
    {st : PackState} {h : ℚ} (hs : 0 ≤ c.problem_spacing)
    (hinv : PackInv c done st) : PackInv c done (packResolve c st h) := by
  unfold packResolve
  have h1 : PackInv c done (packResolve1 c st) := by
    unfold packResolve1
    split
    · exact advanceRow_inv hs hinv
    · exact hinv
  have h2 : PackInv c done (packResolve2 c (packResolve1 c st) h) := by
    unfold packResolve2
    split
    · exact advanceRow_inv hs h1
    · exact h1
  unfold packResolve3
  split
  · exact startNewPage_inv h2
  · exact h2

theorem packResolve_column_lt {c : PdfOutputParams} {st : PackState} {h : ℚ}
    (hc : 1 ≤ c.columns) :
    (packResolve c st h).currentColumn < c.columns := by
  unfold packResolve packResolve3
  split
  · simp only [startNewPage]
    omega
  · unfold packResolve2
    split
    · rw [advanceRow_currentColumn]
      omega
    · unfold packResolve1
      split
      · rw [advanceRow_currentColumn]
        omega
      · next hcond => omega

theorem packResolve_fresh_or_fits {c : PdfOutputParams} {st : PackState}
    {h : ℚ} :
    (packResolve c st h).currentRowTop = pageInitialTop c ∨
      ¬((packResolve c st h).currentRowTop - h < c.margin) := by
  unfold packResolve packResolve3
  split
  · exact Or.inl rfl
  · next hcond => exact Or.inr hcond

theorem packStep_ok {c : PdfOutputParams} {st st' : PackState}
    {p : PreparedProblem} (h : packStep c st p = Except.ok st') :
    st' = placeElement c (packResolve c st p.scaled_height) p := by
  unfold packStep at h
  split at h
  · cases h
  · cases h
    rfl

theorem packStep_inv {c : PdfOutputParams} {done : List PreparedProblem}
    {st st' : PackState} {p : PreparedProblem} (hc : 1 ≤ c.columns)
    (hs : 0 ≤ c.problem_spacing) (hinv : PackInv c done st)
    (h : packStep c st p = Except.ok st') :
    PackInv c (done ++ [p]) st' := by
  rw [packStep_ok h]
  exact placeElement_inv (packResolve_inv hs hinv) (packResolve_column_lt hc)

theorem packStep_error_iff {c : PdfOutputParams} {done : List PreparedProblem}
    {st : PackState} {p : PreparedProblem} (hs : 0 ≤ c.problem_spacing)
    (hinv : PackInv c done st) :
    (∃ e, packStep c st p = Except.error e) ↔
      pageInitialTop c - p.scaled_height < c.margin := by
  have hres : PackInv c done (packResolve c st p.scaled_height) :=
    packResolve_inv hs hinv
  constructor
  · rintro ⟨e, he⟩
    unfold packStep at he
    split at he
    · next hcond =>
      rcases @packResolve_fresh_or_fits c st p.scaled_height with hf | hf
      · rw [hf] at hcond
        exact hcond
      · exact absurd hcond hf
    · cases he
  · intro hlt
    refine ⟨LayoutError.elementTooTall, ?_⟩
    unfold packStep
    have htop := hres.top_le
    rw [if_pos (by linarith)]

theorem packLoop_inv {c : PdfOutputParams} {ps : List PreparedProblem}
    {done : List PreparedProblem} {st st' : PackState} (hc : 1 ≤ c.columns)
    (hs : 0 ≤ c.problem_spacing) (hinv : PackInv c done st)
    (h : packLoop c st ps = Except.ok st') :
    PackInv c (done ++ ps) st' := by
  induction ps generalizing st done with
  | nil =>
    unfold packLoop at h
    cases h
    simpa using hinv
  | cons p rest ih =>
    unfold packLoop at h
    cases hstep : packStep c st p with
    | error e => rw [hstep] at h; cases h
    | ok stm =>
      rw [hstep] at h
      have := ih (packStep_inv hc hs hinv hstep) h
      simpa [List.append_assoc] using this

theorem packLoop_error_iff {c : PdfOutputParams} {ps : List PreparedProblem}
    {done : List PreparedProblem} {st : PackState} (hc : 1 ≤ c.columns)
    (hs : 0 ≤ c.problem_spacing) (hinv : PackInv c done st) :
    (∃ e, packLoop c st ps = Except.error e) ↔
      ∃ p ∈ ps, pageInitialTop c - p.scaled_height < c.margin := by
  induction ps generalizing st done with
  | nil =>
    unfold packLoop
    simp
  | cons p rest ih =>
    unfold packLoop
    cases hstep : packStep c st p with
    | error e =>
      have htall := (packStep_error_iff hs hinv).mp ⟨e, hstep⟩
      simp only [List.mem_cons]
      exact ⟨fun _ => ⟨p, Or.inl rfl, htall⟩, fun _ => ⟨e, rfl⟩⟩
    | ok stm =>
      have hnotall : ¬(pageInitialTop c - p.scaled_height < c.margin) := by
        intro hlt
        obtain ⟨e, he⟩ := (packStep_error_iff hs hinv).mpr hlt
        rw [hstep] at he
        cases he
      have := ih (packStep_inv hc hs hinv hstep)
      simp only [List.mem_cons]
      rw [this]
      constructor
      · rintro ⟨q, hq, hqt⟩
        exact ⟨q, Or.inr hq, hqt⟩
      · rintro ⟨q, hq | hq, hqt⟩
        · subst hq
          exact absurd hqt hnotall
        · exact ⟨q, hq, hqt⟩

theorem packProblems_ok_inv {c : PdfOutputParams} {ps : List PreparedProblem}
    {pages : List PageLayout} (hc : 1 ≤ c.columns)
    (hs : 0 ≤ c.problem_spacing)
    (h : packProblems c ps = Except.ok pages) :
    (∀ page ∈ pages, PageWF c page) ∧
      (allPlacements pages).map Placement.prepared = ps := by
  unfold packProblems at h
  cases hl : packLoop c (initState c) ps with
  | error e => rw [hl] at h; cases h
  | ok st =>
    rw [hl] at h
    cases h
    have hinv : PackInv c ps st := by
      simpa using packLoop_inv hc hs (packInv_init c) hl
    exact ⟨flushPages_wf hinv, by
      rw [allPlacements_flushPages]
      exact hinv.flat⟩

theorem packProblems_error_iff {c : PdfOutputParams}
    {ps : List PreparedProblem} (hc : 1 ≤ c.columns)
    (hs : 0 ≤ c.problem_spacing) :
    (∃ e, packProblems c ps = Except.error e) ↔
      ∃ p ∈ ps, pageInitialTop c - p.scaled_height < c.margin := by
  unfold packProblems
  cases hl : packLoop c (initState c) ps with
  | error e =>
    have := (packLoop_error_iff hc hs (packInv_init c)).mp ⟨e, hl⟩
    exact ⟨fun _ => this, fun _ => ⟨e, rfl⟩⟩
  | ok st =>
    simp only [Except.ok.injEq]
    constructor
    · rintro ⟨e, he⟩
      cases he
    · intro htall
      obtain ⟨e, he⟩ :=
        (packLoop_error_iff hc hs (packInv_init c)).mpr htall
      rw [hl] at he
      cases he

/-! ### The redistribution pass -/

theorem shiftRow_frame (s : ℚ) (r : RowLayout) :
    (shiftRow s r).frame = r.frame := by
  simp [RowLayout.frame, shiftRow, List.map_map, Function.comp,
    Placement.frame]

theorem shiftRowsCumulative_frame (gap : ℚ) (acc : ℚ) (l : List RowLayout) :
    (shiftRowsCumulative gap acc l).map RowLayout.frame =
      l.map RowLayout.frame := by
  induction l generalizing acc with
  | nil => rfl
  | cons r rest ih => simp [shiftRowsCumulative, shiftRow_frame, ih]

theorem redistributePage_frame (m : ℚ) (page : PageLayout) :
    (redistributePage m page).frame = page.frame := by
  unfold redistributePage
  split
  · rfl
  · next first heq =>
    split
    · simp [PageLayout.frame, heq, shiftRow_frame]
    · rfl
  · next first second rest2 heq =>
    split
    · simp [PageLayout.frame, heq, shiftRowsCumulative_frame]
    · rfl

theorem redistribute_frame (m : ℚ) (pages : List PageLayout) :
    (redistribute m pages).map PageLayout.frame =
      pages.map PageLayout.frame := by
  unfold redistribute
  rw [List.map_map]
  exact List.map_congr_left fun page _ => redistributePage_frame m page

theorem shiftRow_wf {c : PdfOutputParams} {r : RowLayout} {s : ℚ}
    (hw : RowWF c r) : RowWF c (shiftRow s r) := by
  refine
    { tops := ?_, heights := ?_, height_nonneg := hw.height_nonneg,
      nonempty := ?_, cols := ?_, cols_le := ?_, xoff := ?_ }
  · intro p hp
    simp only [shiftRow, List.mem_map] at hp
    obtain ⟨q, hq, rfl⟩ := hp
    simp [shiftRow, hw.tops q hq]
  · intro p hp
    simp only [shiftRow, List.mem_map] at hp
    obtain ⟨q, hq, rfl⟩ := hp
    simpa [shiftRow] using hw.heights q hq
  · simp only [shiftRow]
    simpa using hw.nonempty
  · simpa [shiftRow, List.map_map, Function.comp] using hw.cols
  · simpa [shiftRow] using hw.cols_le
  · intro p hp
    simp only [shiftRow, List.mem_map] at hp
    obtain ⟨q, hq, rfl⟩ := hp
    simpa [shiftRow] using hw.xoff q hq

theorem shiftRowsCumulative_length (gap acc : ℚ) (l : List RowLayout) :
    (shiftRowsCumulative gap acc l).length = l.length := by
  induction l generalizing acc with
  | nil => rfl
  | cons r rest ih => simp [shiftRowsCumulative, ih]

theorem shiftRowsCumulative_getElem? (gap acc : ℚ) (l : List RowLayout)
    (i : ℕ) :
    (shiftRowsCumulative gap acc l)[i]? =
      (l[i]?).map fun r => shiftRow (acc + ((i : ℚ) + 1) * gap) r := by
  induction l generalizing acc i with
  | nil => simp [shiftRowsCumulative]
  | cons r rest ih =>
    cases i with
    | zero =>
      simp only [shiftRowsCumulative, List.getElem?_cons_zero, Option.map_some]
      norm_num
    | succ n =>
      simp only [shiftRowsCumulative, List.getElem?_cons_succ, ih]
      have harith : acc + gap + ((n : ℚ) + 1) * gap =
          acc + (((n + 1 : ℕ) : ℚ) + 1) * gap := by
        push_cast
        ring
      rw [harith]

theorem tol_pos : (0 : ℚ) < FLOAT_TOLERANCE := by
  norm_num [FLOAT_TOLERANCE]

theorem getLast?_cons_eq {α : Type} (a : α) (l : List α) :
    (a :: l).getLast? = some (l.getLastD a) := by
  induction l generalizing a with
  | nil => rfl
  | cons b t ih => rw [List.getLast?_cons_cons, ih b, List.getLastD_cons]

theorem redistributePage_wf {c : PdfOutputParams} {page : PageLayout}
    {m : ℚ} (hw : PageWF c page) : PageWF c (redistributePage m page) := by
  unfold redistributePage
  split
  · exact hw
  · next first heq =>
    have hfirst : first ∈ page.rows := by
      rw [heq]; exact List.mem_cons_self _ _
    split
    · refine ⟨?_, ?_, by simp⟩
      · intro r hr
        rw [List.mem_singleton.mp hr]
        exact shiftRow_wf (hw.rows_wf first hfirst)
      · exact List.pairwise_singleton _ _
    · exact hw
  · next first second rest2 heq =>
    have hfirst : first ∈ page.rows := by
      rw [heq]; exact List.mem_cons_self _ _
    split
    · next hextra =>
      set rest := second :: rest2 with hrestdef
      have hrest : rest ≠ [] := by rw [hrestdef]; simp
      have hgap : 0 ≤ ((rest.getLastD first).top -
          (rest.getLastD first).height - m) / (rest.length : ℚ) := by
        have h1 : (0 : ℚ) < (rest.length : ℚ) := by
          have := List.length_pos.mpr hrest
          exact_mod_cast this
        have h2 : 0 < (rest.getLastD first).top -
            (rest.getLastD first).height - m := lt_trans tol_pos hextra
        positivity
      set gap := ((rest.getLastD first).top -
        (rest.getLastD first).height - m) / (rest.length : ℚ) with hgapdef
      have hsep := hw.sep
      rw [heq, List.pairwise_iff_getElem] at hsep
      have hget : ∀ k (hk : k < (shiftRowsCumulative gap 0 rest).length),
          ∃ hk2 : k < rest.length,
            (shiftRowsCumulative gap 0 rest)[k] =
              shiftRow (((k : ℚ) + 1) * gap) rest[k] := by
        intro k hk
        have hk2 : k < rest.length := by
          rwa [shiftRowsCumulative_length] at hk
        refine ⟨hk2, ?_⟩
        have h1 : (shiftRowsCumulative gap 0 rest)[k]? =
            some ((shiftRowsCumulative gap 0 rest)[k]) :=
          List.getElem?_eq_some.mpr ⟨hk, rfl⟩
        rw [shiftRowsCumulative_getElem?, List.getElem?_eq_some.mpr ⟨hk2, rfl⟩]
          at h1
        simp only [Option.map_some', Option.some.injEq] at h1
        rw [← h1, zero_add]
      refine ⟨?_, ?_, by simp⟩
      · intro r hr
        rcases List.mem_cons.mp hr with h1 | h2
        · rw [h1]; exact hw.rows_wf first hfirst
        · obtain ⟨k, hk⟩ := List.mem_iff_getElem?.mp h2
          have hklt : k < (shiftRowsCumulative gap 0 rest).length := by
            by_contra hbad
            rw [List.getElem?_eq_none (le_of_not_lt hbad)] at hk
            cases hk
          obtain ⟨hk2, hval⟩ := hget k hklt
          have hr2 : r = shiftRow (((k : ℚ) + 1) * gap) rest[k] := by
            have h3 : (shiftRowsCumulative gap 0 rest)[k]? =
                some (shiftRow (((k : ℚ) + 1) * gap) rest[k]) := by
              rw [List.getElem?_eq_getElem hklt, hval]
            rw [hk] at h3
            exact Option.some.inj h3
          rw [hr2]
          refine shiftRow_wf (hw.rows_wf _ ?_)
          rw [heq]
          exact List.mem_cons_of_mem _ (List.getElem_mem hk2)
      · rw [List.pairwise_iff_getElem]
        intro i j hi hj hij
        cases i with
        | zero =>
          cases j with
          | zero => omega
          | succ b =>
            have hb : b < (shiftRowsCumulative gap 0 rest).length := by
              simpa using hj
            obtain ⟨hb2, hbval⟩ := hget b hb
            simp only [List.getElem_cons_zero, List.getElem_cons_succ]
            rw [hbval]
            have horig := hsep 0 (b + 1) (by simp)
              (by simpa using hb2) (Nat.succ_pos b)
            simp only [List.getElem_cons_zero, List.getElem_cons_succ]
              at horig
            unfold RowSep at horig ⊢
            simp only [shiftRow]
            have hshift : 0 ≤ ((b : ℚ) + 1) * gap := by positivity
            linarith
        | succ a =>
          cases j with
          | zero => omega
          | succ b =>
            have ha : a < (shiftRowsCumulative gap 0 rest).length := by
              simpa using hi
            have hb : b < (shiftRowsCumulative gap 0 rest).length := by
              simpa using hj
            obtain ⟨ha2, haval⟩ := hget a ha
            obtain ⟨hb2, hbval⟩ := hget b hb
            simp only [List.getElem_cons_succ]
            rw [haval, hbval]
            have horig := hsep (a + 1) (b + 1)
              (by simpa using Nat.succ_lt_succ ha2)
              (by simpa using Nat.succ_lt_succ hb2)
              (by omega)
            simp only [List.getElem_cons_succ] at horig
            unfold RowSep at horig ⊢
            simp only [shiftRow]
            have hab : (a : ℚ) ≤ (b : ℚ) := by
              exact_mod_cast Nat.le_of_lt_succ (by omega)
            nlinarith
    · exact hw

theorem redistributePage_bottom_exact {page : PageLayout} {m : ℚ}
    {first : RowLayout} {rest : List RowLayout}
    (heq : page.rows = first :: rest)
    (hextra : FLOAT_TOLERANCE <
      (rest.getLastD first).top - (rest.getLastD first).height - m) :
    ∃ r, (redistributePage m page).rows.getLast? = some r ∧
      r.top - r.height = m := by
  unfold redistributePage
  split
  · next heq2 => rw [heq] at heq2; cases heq2
  · next first2 heq2 =>
    rw [heq] at heq2
    cases heq2
    rw [if_pos (by simpa using hextra)]
    refine ⟨_, rfl, ?_⟩
    simp only [List.getLastD] at hextra
    simp only [shiftRow, List.getLast_singleton]
    ring
  · next first2 second2 rest2 heq2 =>
    rw [heq] at heq2
    injection heq2 with e1 e2
    subst e1
    rw [if_pos (by rw [← e2]; exact hextra)]
    rw [← e2]
    have hrest : rest ≠ [] := by rw [e2]; simp
    have hlen : 0 < rest.length := List.length_pos.mpr hrest
    set gap := ((rest.getLastD first).top - (rest.getLastD first).height -
      m) / (rest.length : ℚ) with hgapdef
    set L := shiftRowsCumulative gap 0 rest with hLdef
    have hLlen : L.length = rest.length :=
      shiftRowsCumulative_length gap 0 rest
    have hidx : rest.length - 1 < rest.length := by omega
    have hgl : rest.getLastD first = rest.get ⟨rest.length - 1, hidx⟩ := by
      rw [List.getLastD_eq_getLast?, List.getLast?_eq_getElem?,
        List.getElem?_eq_getElem hidx]
      rfl
    have hcast : ((rest.length - 1 : ℕ) : ℚ) = (rest.length : ℚ) - 1 :=
      Nat.cast_sub (by omega)
    have hngap : (0 : ℚ) + (((rest.length : ℚ) - 1) + 1) * gap =
        (rest.getLastD first).top - (rest.getLastD first).height - m := by
      rw [hgapdef]
      have hn0 : ((rest.length : ℚ)) ≠ 0 := by
        exact_mod_cast Nat.pos_iff_ne_zero.mp hlen
      field_simp
    have hL1 : L[rest.length - 1]? =
        some (shiftRow ((rest.getLastD first).top -
          (rest.getLastD first).height - m) (rest.get ⟨rest.length - 1, hidx⟩)) := by
      rw [hLdef, shiftRowsCumulative_getElem?,
        List.getElem?_eq_getElem hidx, Option.map_some', hcast, hngap]
      rfl
    have hLD : L.getLastD first =
        shiftRow ((rest.getLastD first).top -
          (rest.getLastD first).height - m) (rest.get ⟨rest.length - 1, hidx⟩) := by
      rw [List.getLastD_eq_getLast?, List.getLast?_eq_getElem?, hLlen, hL1]
      rfl
    refine ⟨_, getLast?_cons_eq first L, ?_⟩
    rw [hLD, ← hgl]
    simp only [shiftRow]
    ring

theorem redistributePage_lastBottom {page : PageLayout} {m : ℚ}
    (hne : page.rows ≠ []) :
    ∃ r, (redistributePage m page).rows.getLast? = some r ∧
      r.top - r.height ≤ m + FLOAT_TOLERANCE := by
  cases heq : page.rows with
  | nil => exact absurd heq hne
  | cons first rest =>
    by_cases hextra : FLOAT_TOLERANCE <
        (rest.getLastD first).top - (rest.getLastD first).height - m
    · obtain ⟨r, hr, hb⟩ := redistributePage_bottom_exact heq hextra
      refine ⟨r, hr, ?_⟩
      rw [hb]
      linarith [le_of_lt tol_pos]
    · have hsame : redistributePage m page = page := by
        unfold redistributePage
        split
        · rfl
        · next first2 heq2 =>
          rw [heq] at heq2
          cases heq2
          rw [if_neg (by simpa using hextra)]
        · next first2 second2 rest2 heq2 =>
          rw [heq] at heq2
          injection heq2 with e1 e2
          subst e1
          rw [if_neg (by rw [← e2]; exact hextra)]
      rw [hsame, heq]
      refine ⟨rest.getLastD first, getLast?_cons_eq first rest, ?_⟩
      linarith [not_lt.mp hextra]

theorem mem_of_getLast?_eq {α : Type} {l : List α} {a : α}
    (h : l.getLast? = some a) : a ∈ l := by
  obtain ⟨h', hx⟩ := List.mem_getLast?_eq_getLast (Option.mem_def.mpr h)
  rw [hx]
  exact List.getLast_mem h'

theorem packStep_error_eq {c : PdfOutputParams} {st : PackState}
    {p : PreparedProblem} {e : LayoutError}
    (h : packStep c st p = Except.error e) : e = LayoutError.elementTooTall := by
  unfold packStep at h
  split at h
  · cases h; rfl
  · cases h

theorem packLoop_error_eq {c : PdfOutputParams} {ps : List PreparedProblem}
    {st : PackState} {e : LayoutError}
    (h : packLoop c st ps = Except.error e) : e = LayoutError.elementTooTall := by
  induction ps generalizing st with
  | nil => unfold packLoop at h; cases h
  | cons p rest ih =>
    unfold packLoop at h
    cases hstep : packStep c st p with
    | error e2 =>
      rw [hstep] at h
      cases h
      exact packStep_error_eq hstep
    | ok stm =>
      rw [hstep] at h
      exact ih h

theorem packProblems_error_eq {c : PdfOutputParams}
    {ps : List PreparedProblem} {e : LayoutError}
    (h : packProblems c ps = Except.error e) :
    e = LayoutError.elementTooTall := by
  unfold packProblems at h
  cases hl : packLoop c (initState c) ps with
  | error e2 =>
    rw [hl] at h
    cases h
    exact packLoop_error_eq hl
  | ok st => rw [hl] at h; cases h

/-- Placement data other than tops is a function of the page frames, so
frame-equal page lists have the same flattened `prepared` sequence. -/
theorem allPlacements_prepared_of_frame {pages pages' : List PageLayout}
    (h : pages'.map PageLayout.frame = pages.map PageLayout.frame) :
    (allPlacements pages').map Placement.prepared =
      (allPlacements pages).map Placement.prepared := by
  have key : ∀ ps : List PageLayout,
      (allPlacements ps).map Placement.prepared =
        ((ps.map PageLayout.frame).map
          (fun rows => (rows.map Prod.snd).flatten)).flatten.map Prod.fst := by
    intro ps
    unfold allPlacements
    simp only [List.map_flatten, List.map_map]
    congr 1
    apply List.map_congr_left
    intro pg _
    simp [Function.comp_def, pagePlacements, PageLayout.frame,
      RowLayout.frame, Placement.frame, List.map_flatten, List.map_map]
  rw [key, key, h]

theorem generateLayout_ok_cases {c : PdfOutputParams} {gs : List SvgGeometry}
    {pages : List PageLayout} (h : generateLayout c gs = Except.ok pages) :
    gs ≠ [] ∧ ∃ ps packed, prepareAll (columnWidth c) gs = Except.ok ps ∧
      packProblems c ps = Except.ok packed ∧
      pages = redistribute c.margin packed := by
  unfold generateLayout at h
  split at h
  · cases h
  · next hd tl =>
    refine ⟨by simp, ?_⟩
    split at h
    · cases h
    · split at h
      · cases h
      · cases hp : prepareAll (columnWidth c) (hd :: tl) with
        | error e => rw [hp] at h; cases h
        | ok ps =>
          rw [hp] at h
          dsimp only at h
          cases hq : packProblems c ps with
          | error e => rw [hq] at h; cases h
          | ok packed =>
            rw [hq] at h
            dsimp only at h
            cases h
            exact ⟨ps, packed, rfl, hq, rfl⟩

/-- Summary of what a successful `generateLayout` run guarantees under a
valid configuration: all pages are well formed, the placements enumerate
the input geometries in order, and every placement's prepared data is the
normalization of its geometry. -/
theorem generateLayout_main {c : PdfOutputParams} {gs : List SvgGeometry}
    {pages : List PageLayout} (hv : c.Valid)
    (h : generateLayout c gs = Except.ok pages) :
    (∀ page ∈ pages, PageWF c page) ∧
      ((allPlacements pages).map Placement.prepared).map
        PreparedProblem.geometry = gs ∧
      ∀ p ∈ allPlacements pages,
        p.prepared.scaled_width = columnWidth c ∧
        p.prepared.scale = columnWidth c / p.prepared.geometry.width ∧
        p.prepared.scaled_height =
          p.prepared.geometry.height * p.prepared.scale ∧
        0 < p.prepared.geometry.width := by
  obtain ⟨hgs, ps, packed, hp, hq, rfl⟩ := generateLayout_ok_cases h
  obtain ⟨hwf, hflat⟩ :=
    packProblems_ok_inv hv.2.2.2.1 (by
      have := hv.2.1
      unfold PdfOutputParams.problem_spacing
      unfold POINTS_PER_INCH
      linarith) hq
  obtain ⟨hgeom, hspec⟩ := prepareAll_ok_spec hp
  have hfr := redistribute_frame c.margin packed
  have hprep := allPlacements_prepared_of_frame hfr
  rw [hflat] at hprep
  refine ⟨?_, ?_, ?_⟩
  · intro page hpage
    unfold redistribute at hpage
    obtain ⟨pg0, hpg0, rfl⟩ := List.mem_map.mp hpage
    exact redistributePage_wf (hwf pg0 hpg0)
  · rw [hprep, hgeom]
  · intro p hp2
    have hmem : p.prepared ∈ ps := by
      rw [← hprep]
      exact List.mem_map_of_mem Placement.prepared hp2
    obtain ⟨h1, h2, h3, h4⟩ := hspec p.prepared hmem
    exact ⟨h4, h2, h3, h1⟩

theorem valid_spacing {c : PdfOutputParams} (hv : c.Valid) :
    0 ≤ c.problem_spacing := by
  unfold PdfOutputParams.problem_spacing POINTS_PER_INCH
  have := hv.2.1
  linarith

/-- Any two placements on a well-formed page whose tops differ are separated
by at least the configured problem spacing. -/
theorem PageWF.no_overlap {c : PdfOutputParams} {page : PageLayout}
    (hw : PageWF c page) (hs : 0 ≤ c.problem_spacing) {p q : Placement}
    (hp : p ∈ pagePlacements page) (hq : q ∈ pagePlacements page)
    (ht : q.top < p.top) :
    c.problem_spacing ≤ p.top - p.prepared.scaled_height - q.top := by
  unfold pagePlacements at hp hq
  rw [List.mem_flatten] at hp hq
  obtain ⟨lp, hlp, hpin⟩ := hp
  obtain ⟨lq, hlq, hqin⟩ := hq
  rw [List.mem_map] at hlp hlq
  obtain ⟨rp, hrp, rfl⟩ := hlp
  obtain ⟨rq, hrq, rfl⟩ := hlq
  have hwp := hw.rows_wf rp hrp
  have hwq := hw.rows_wf rq hrq
  have htp : p.top = rp.top := hwp.tops p hpin
  have htq : q.top = rq.top := hwq.tops q hqin
  have hhp : p.prepared.scaled_height ≤ rp.height := hwp.heights p hpin
  obtain ⟨i, hi, hieq⟩ := List.mem_iff_getElem.mp hrp
  obtain ⟨j, hj, hjeq⟩ := List.mem_iff_getElem.mp hrq
  have hsep := hw.sep
  rw [List.pairwise_iff_getElem] at hsep
  rcases lt_trichotomy i j with hij | hij | hij
  · have hr := hsep i j hi hj hij
    rw [hieq, hjeq] at hr
    unfold RowSep at hr
    linarith
  · subst hij
    rw [hieq] at hjeq
    rw [← hjeq] at htq
    linarith
  · have hr := hsep j i hj hi hij
    rw [hjeq, hieq] at hr
    unfold RowSep at hr
    have hhq0 : 0 ≤ rq.height := hwq.height_nonneg
    linarith

/-! ### The claims -/

/-- C5: for every element, geometry normalization fails with the
invalid-geometry error exactly when `intrinsic_width ≤ 0`, and otherwise
produces `scale = column_width / intrinsic_width` and
`scaled_height = intrinsic_height * scale`, with no upper or lower clamp on
the scale (narrow elements are enlarged to exactly fill the column). -/
theorem C5_geometry_normalization (column_width : ℚ) (g : SvgGeometry) :
    (prepareProblem column_width g =
        Except.error LayoutError.invalidGeometry ↔ g.width ≤ 0) ∧
      (0 < g.width → prepareProblem column_width g = Except.ok
        { geometry := g, scale := column_width / g.width,
          scaled_height := g.height * (column_width / g.width),
          scaled_width := column_width }) := by
  constructor
  · constructor
    · intro he
      by_contra hw
      rw [prepareProblem_pos (not_le.mp hw)] at he
      cases he
    · intro hw
      unfold prepareProblem
      rw [if_pos hw]
  · exact fun h => prepareProblem_pos h

/-- Witness for C5 at concrete inputs: width 4 is accepted and scaled, width
0 is rejected. -/
theorem C5_geometry_normalization_witness :
    prepareProblem 2 ⟨4, 6⟩ =
        Except.ok ⟨⟨4, 6⟩, 2 / 4, 6 * (2 / 4), 2⟩ ∧
      prepareProblem 2 ⟨0, 6⟩ =
        Except.error LayoutError.invalidGeometry :=
  ⟨(C5_geometry_normalization 2 ⟨4, 6⟩).2 (by norm_num),
    (C5_geometry_normalization 2 ⟨0, 6⟩).1.mpr (by norm_num)⟩

/-- C6: the redistribution pass changes only the `top` coordinates: the
number of pages and the complete frame of every page (its rows in order,
each row's height, and each placement's prepared data, column index and
x offset, in order) are identical before and after the pass. -/
theorem C6_redistribution_frame (m : ℚ) (pages : List PageLayout) :
    (redistribute m pages).length = pages.length ∧
      (redistribute m pages).map PageLayout.frame =
        pages.map PageLayout.frame :=
  ⟨List.length_map _ _, redistribute_frame m pages⟩

/-- C7 counterexample: with one column and no title, the elements 140×90 and
280×180 have the same aspect ratio and land in the same column (index 0 on
page 0, rows 0 and 1), yet their scale factors are 18/5 and 9/5, which
differ by far more than the floating tolerance.  The claim that equal
aspect ratios force equal scale factors is false: the scale depends only on
the intrinsic width. -/
theorem C7_counterexample :
    (Option.map
        (fun p => (p.column_index, p.prepared.geometry, p.prepared.scale))
        ((generateLayout { title := "", columns := 1 }
          [⟨140, 90⟩, ⟨280, 180⟩]).toOption.bind
            fun pages => placementAt pages 0 0 0)) =
      some (0, ⟨140, 90⟩, 18 / 5) ∧
    (Option.map
        (fun p => (p.column_index, p.prepared.geometry, p.prepared.scale))
        ((generateLayout { title := "", columns := 1 }
          [⟨140, 90⟩, ⟨280, 180⟩]).toOption.bind
            fun pages => placementAt pages 0 1 0)) =
      some (0, ⟨280, 180⟩, 9 / 5) ∧
    (90 : ℚ) / 140 = (180 : ℚ) / 280 ∧
    ¬(|18 / 5 - (9 / 5 : ℚ)| ≤ FLOAT_TOLERANCE) := by
  norm_num [generateLayout, prepareAll, prepareProblem, packProblems,
    packLoop, packStep, packResolve, packResolve3, packResolve2, packResolve1,
    advanceRow, startNewPage, placeElement, flushPages, flushRows, initState,
    redistribute, redistributePage, shiftRowsCumulative, shiftRow,
    pageInitialTop, titleBlockHeight, columnWidth, availableWidth,
    contentWidth, totalSpacing, columnOffset, PdfOutputParams.margin,
    PdfOutputParams.problem_spacing, PdfOutputParams.column_spacing,
    POINTS_PER_INCH, LETTER_PAGE_WIDTH, LETTER_PAGE_HEIGHT,
    MIN_HEADER_LABEL_FONT_SIZE, HEADER_SPACING_MULTIPLIER, FLOAT_TOLERANCE,
    max_def, List.getLastD, Except.toOption, placementAt, abs_le]

/-- C7 amended: two elements with the same original aspect ratio placed in
the same column receive the same scaled width and the same scaled height
(identical rendered size), but not necessarily the same scale factor — the
scale is `column_width / intrinsic_width` and depends only on the intrinsic
width. -/
theorem C7_amended_same_rendered_size (column_width : ℚ)
    (g1 g2 : SvgGeometry) (p1 p2 : PreparedProblem)
    (h1 : prepareProblem column_width g1 = Except.ok p1)
    (h2 : prepareProblem column_width g2 = Except.ok p2)
    (haspect : g1.height / g1.width = g2.height / g2.width) :
    p1.scaled_height = p2.scaled_height ∧
      p1.scaled_width = p2.scaled_width := by
  unfold prepareProblem at h1 h2
  by_cases hw1 : g1.width ≤ 0
  · rw [if_pos hw1] at h1; cases h1
  · rw [if_neg hw1] at h1
    by_cases hw2 : g2.width ≤ 0
    · rw [if_pos hw2] at h2; cases h2
    · rw [if_neg hw2] at h2
      cases h1
      cases h2
      refine ⟨?_, rfl⟩
      have e1 : g1.height * (column_width / g1.width) =
          g1.height / g1.width * column_width := by ring
      have e2 : g2.height * (column_width / g2.width) =
          g2.height / g2.width * column_width := by ring
      dsimp only
      rw [e1, e2, haspect]

/-- Witness for the amended C7 at 140×90 and 280×180 with column width 10. -/
theorem C7_amended_witness :
    (⟨⟨140, 90⟩, 10 / 140, 90 * ((10 : ℚ) / 140), 10⟩ :
        PreparedProblem).scaled_height =
      (⟨⟨280, 180⟩, 10 / 280, 180 * ((10 : ℚ) / 280), 10⟩ :
        PreparedProblem).scaled_height ∧
    (⟨⟨140, 90⟩, 10 / 140, 90 * ((10 : ℚ) / 140), 10⟩ :
        PreparedProblem).scaled_width =
      (⟨⟨280, 180⟩, 10 / 280, 180 * ((10 : ℚ) / 280), 10⟩ :
        PreparedProblem).scaled_width :=
  C7_amended_same_rendered_size 10 ⟨140, 90⟩ ⟨280, 180⟩ _ _
    (by norm_num [prepareProblem]) (by norm_num [prepareProblem])
    (by norm_num)

/-- C8 counterexample: with the default configuration (columns = 4, margin
= 0.75 in) and 9 identically sized 140×90 elements, page 1 holds rows of
4, 4 and 1 placements — i.e. TWO full rows of 4 plus one row of 1, not the
three full rows of 4 plus one row of 1 the claim asserts (which would need
13 elements). -/
theorem C8_counterexample :
    ((generateLayout ({} : PdfOutputParams)
        (List.replicate 9 ⟨140, 90⟩)).toOption.map fun pages =>
      pages.map fun pg => pg.rows.map fun r => r.placements.length)
      = some [[4, 4, 1]] ∧
    ¬((some [[4, 4, 1]] : Option (List (List ℕ))) =
      some [[4, 4, 4, 1]]) := by
  have htitle : ¬(("Math Test" : String) = "") := by simp
  constructor
  · norm_num [htitle, generateLayout, prepareAll, prepareProblem,
      packProblems, packLoop, packStep, packResolve, packResolve3,
      packResolve2, packResolve1, advanceRow, startNewPage, placeElement,
      flushPages, flushRows, initState, redistribute, redistributePage,
      shiftRowsCumulative, shiftRow, pageInitialTop, titleBlockHeight,
      columnWidth, availableWidth, contentWidth, totalSpacing, columnOffset,
      PdfOutputParams.margin, PdfOutputParams.problem_spacing,
      PdfOutputParams.column_spacing, POINTS_PER_INCH, LETTER_PAGE_WIDTH,
      LETTER_PAGE_HEIGHT, MIN_HEADER_LABEL_FONT_SIZE,
      HEADER_SPACING_MULTIPLIER, FLOAT_TOLERANCE, max_def, List.getLastD,
      Except.toOption, List.replicate]
  · simp

/-- C8 amended: with the default configuration and 9 identically sized
140×90 elements, page 1 contains 2 full rows of 4 placements plus 1 row of
1 placement, and each full row's 4 elements sit at the 4 distinct x-offsets
`margin + i * (column_width + column_spacing)` for `i = 0..3`. -/
theorem C8_amended_layout :
    ((generateLayout ({} : PdfOutputParams)
        (List.replicate 9 ⟨140, 90⟩)).toOption.map fun pages =>
      pages.map fun pg => pg.rows.map fun r => r.placements.length)
      = some [[4, 4, 1]] ∧
    ((generateLayout ({} : PdfOutputParams)
        (List.replicate 9 ⟨140, 90⟩)).toOption.map fun pages =>
      pages.map fun pg => pg.rows.map fun r =>
        r.placements.map Placement.x_offset)
      = some [[[54, 369 / 2, 315, 891 / 2], [54, 369 / 2, 315, 891 / 2],
          [54]]] ∧
    [(54 : ℚ), 369 / 2, 315, 891 / 2] =
      (List.range 4).map (columnOffset ({} : PdfOutputParams)) := by
  have htitle : ¬(("Math Test" : String) = "") := by simp
  norm_num [htitle, generateLayout, prepareAll, prepareProblem,
    packProblems, packLoop, packStep, packResolve, packResolve3,
    packResolve2, packResolve1, advanceRow, startNewPage, placeElement,
    flushPages, flushRows, initState, redistribute, redistributePage,
    shiftRowsCumulative, shiftRow, pageInitialTop, titleBlockHeight,
    columnWidth, availableWidth, contentWidth, totalSpacing, columnOffset,
    PdfOutputParams.margin, PdfOutputParams.problem_spacing,
    PdfOutputParams.column_spacing, POINTS_PER_INCH, LETTER_PAGE_WIDTH,
    LETTER_PAGE_HEIGHT, MIN_HEADER_LABEL_FONT_SIZE,
    HEADER_SPACING_MULTIPLIER, FLOAT_TOLERANCE, max_def, List.getLastD,
    Except.toOption, List.replicate, List.range, List.range.loop]

/-- C1: for every valid configuration and every element list with positive
intrinsic widths, `generate` fails with the element-too-tall error exactly
when some element's scaled height `intrinsic_height * column_width /
intrinsic_width` strictly exceeds the usable height of a fresh page
`page_initial_top - margin`; when no element exceeds that bound the error
is never raised and, whenever layout succeeds, every element is placed. -/
theorem C1_element_too_tall (c : PdfOutputParams) (gs : List SvgGeometry)
    (hv : c.Valid) (hw : ∀ g ∈ gs, 0 < g.width) :
    (generateLayout c gs = Except.error LayoutError.elementTooTall ↔
      ∃ g ∈ gs, pageInitialTop c - c.margin <
        g.height * columnWidth c / g.width) ∧
      ∀ pages, generateLayout c gs = Except.ok pages →
        (allPlacements pages).length = gs.length := by
  constructor
  · cases gs with
    | nil => simp [generateLayout]
    | cons hd tl =>
      unfold generateLayout
      dsimp only
      rw [if_neg (not_le.mpr hv.2.2.2.2.2.2.1),
        if_neg (not_le.mpr hv.2.2.2.2.2.2.2), prepareAll_map hw]
      dsimp only
      cases hq : packProblems c ((hd :: tl).map fun g =>
          { geometry := g, scale := columnWidth c / g.width,
            scaled_height := g.height * (columnWidth c / g.width),
            scaled_width := columnWidth c }) with
      | error e =>
        have he := packProblems_error_eq hq
        subst he
        dsimp only
        constructor
        · intro _
          obtain ⟨p, hpmem, hlt⟩ := (packProblems_error_iff hv.2.2.2.1
            (valid_spacing hv)).mp ⟨_, hq⟩
          rw [List.mem_map] at hpmem
          obtain ⟨g, hg, rfl⟩ := hpmem
          refine ⟨g, hg, ?_⟩
          dsimp only at hlt
          rw [mul_div_assoc]
          linarith
        · intro _
          rfl
      | ok packed =>
        dsimp only
        constructor
        · intro hcon
          cases hcon
        · rintro ⟨g, hg, hlt⟩
          exfalso
          have hiff := @packProblems_error_iff c ((hd :: tl).map fun g =>
            { geometry := g, scale := columnWidth c / g.width,
              scaled_height := g.height * (columnWidth c / g.width),
              scaled_width := columnWidth c }) hv.2.2.2.1 (valid_spacing hv)
          obtain ⟨e, he⟩ := hiff.mpr ⟨_, List.mem_map_of_mem _ hg, by
            show pageInitialTop c -
              g.height * (columnWidth c / g.width) < c.margin
            rw [mul_div_assoc] at hlt
            linarith⟩
          rw [hq] at he
          cases he
  · intro pages hok
    obtain ⟨hwf, hgeom, _⟩ := generateLayout_main hv hok
    have := congrArg List.length hgeom
    simpa using this

/-- Witness for C1: a single 1×2 element in one column with a one-inch
margin is scaled to height 936, which exceeds the usable 648 points, so
generation fails with the element-too-tall error. -/
theorem C1_element_too_tall_witness :
    generateLayout { title := "", columns := 1, margin_inches := 1 }
      [⟨1, 2⟩] = Except.error LayoutError.elementTooTall :=
  (C1_element_too_tall { title := "", columns := 1, margin_inches := 1 }
      [⟨1, 2⟩]
      (by norm_num [PdfOutputParams.Valid, contentWidth, availableWidth,
        totalSpacing, PdfOutputParams.margin, PdfOutputParams.column_spacing,
        POINTS_PER_INCH, LETTER_PAGE_WIDTH])
      (by norm_num)).1.mpr
    ⟨⟨1, 2⟩, by simp, by
      norm_num [pageInitialTop, PdfOutputParams.margin, columnWidth,
        availableWidth, contentWidth, totalSpacing,
        PdfOutputParams.column_spacing, POINTS_PER_INCH, LETTER_PAGE_WIDTH,
        LETTER_PAGE_HEIGHT]⟩

/-- C2: on a finished page whose `extra_space` (bottom of last row minus
margin) exceeds the floating tolerance, redistribution shifts a single-row
page's only row down by exactly `extra_space`; with n ≥ 2 rows it leaves the
first row alone and shifts the row at zero-based index i+1 (the (i+2)-th
row) down by (i+1) * extra_space / (n-1); in both cases the last row's
bottom afterwards equals the margin exactly. -/
theorem C2_redistribution_shifts (m : ℚ) (page : PageLayout)
    (first : RowLayout) (rest : List RowLayout)
    (heq : page.rows = first :: rest)
    (hextra : FLOAT_TOLERANCE <
      (rest.getLastD first).top - (rest.getLastD first).height - m) :
    (rest = [] → (redistributePage m page).rows =
      [shiftRow ((rest.getLastD first).top -
        (rest.getLastD first).height - m) first]) ∧
    (rest ≠ [] → (redistributePage m page).rows[0]? = some first ∧
      ∀ i : ℕ, (redistributePage m page).rows[i + 1]? =
        (rest[i]?).map fun r => shiftRow (((i : ℚ) + 1) *
          (((rest.getLastD first).top - (rest.getLastD first).height - m) /
            (rest.length : ℚ))) r) ∧
    ((redistributePage m page).rows.getLast?.map fun r =>
      r.top - r.height) = some m := by
  refine ⟨?_, ?_, ?_⟩
  · intro hrest
    subst hrest
    unfold redistributePage
    split
    · next heq2 => rw [heq] at heq2; cases heq2
    · next first2 heq2 =>
      rw [heq] at heq2
      cases heq2
      rw [if_pos (by simpa using hextra)]
      rfl
    · next first2 second2 rest2 heq2 =>
      rw [heq] at heq2
      injection heq2 with e1 e2
      cases e2
  · intro hrest
    obtain ⟨second, rest2, hr2⟩ := List.exists_cons_of_ne_nil hrest
    subst hr2
    unfold redistributePage
    split
    · next heq2 => rw [heq] at heq2; cases heq2
    · next first2 heq2 =>
      rw [heq] at heq2
      injection heq2 with e1 e2
      cases e2
    · next first2 second2 rest2x heq2 =>
      rw [heq] at heq2
      injection heq2 with e1 e2
      subst e1
      rw [if_pos (by rw [← e2]; exact hextra), ← e2]
      refine ⟨rfl, ?_⟩
      intro i
      show (first :: shiftRowsCumulative _ 0 (second :: rest2))[i + 1]? = _
      rw [List.getElem?_cons_succ, shiftRowsCumulative_getElem?]
      simp only [zero_add]
  · obtain ⟨r, hr, hb⟩ := redistributePage_bottom_exact heq hextra
    rw [hr, Option.map_some', hb]

/-- Witness for C2 on a two-row page with margin 72: the last row's bottom
starts at 400, so extra space is 328; the second row is shifted down by
328 and its bottom lands exactly on the margin. -/
theorem C2_redistribution_shifts_witness :
    ((redistributePage 72 ⟨[⟨700, 100, []⟩, ⟨500, 100, []⟩]⟩).rows.getLast?.map
      fun r => r.top - r.height) = some 72 ∧
    (redistributePage 72 ⟨[⟨700, 100, []⟩, ⟨500, 100, []⟩]⟩).rows[1]? =
      some (shiftRow 328 ⟨500, 100, []⟩) := by
  have h := C2_redistribution_shifts 72 ⟨[⟨700, 100, []⟩, ⟨500, 100, []⟩]⟩
    ⟨700, 100, []⟩ [⟨500, 100, []⟩] rfl
    (by norm_num [FLOAT_TOLERANCE, List.getLastD])
  have h2 := (h.2.1 (by simp)).2 0
  norm_num [List.getLastD] at h2
  exact ⟨h.2.2, h2⟩

/-- C3: under a valid configuration, every input element receives exactly
one placement, enumerating placements page by page, row by row, left to
right yields the elements in input order, and within each row the column
indices are `0, 1, 2, …` consecutively and stay below the configured
column count. -/
theorem C3_order_and_columns (c : PdfOutputParams) (gs : List SvgGeometry)
    (pages : List PageLayout) (hv : c.Valid)
    (hok : generateLayout c gs = Except.ok pages) :
    ((allPlacements pages).map fun p => p.prepared.geometry) = gs ∧
      ∀ page ∈ pages, ∀ row ∈ page.rows,
        row.placements.map Placement.column_index =
          List.range row.placements.length ∧
        ∀ p ∈ row.placements, p.column_index < c.columns := by
  obtain ⟨hwf, hgeom, _⟩ := generateLayout_main hv hok
  constructor
  · simpa [Function.comp_def] using hgeom
  · intro page hpage row hrow
    have hw := (hwf page hpage).rows_wf row hrow
    refine ⟨hw.cols, ?_⟩
    intro p hp
    have hmem : p.column_index ∈
        row.placements.map Placement.column_index :=
      List.mem_map_of_mem _ hp
    rw [hw.cols] at hmem
    exact lt_of_lt_of_le (List.mem_range.mp hmem) hw.cols_le

/-- Witness for C3 on `cfgW1` / `gsW1`: three elements across two columns
give placements in input order with column indices 0, 1 then 0. -/
theorem C3_order_and_columns_witness :
    ((allPlacements pagesW1).map fun p => p.prepared.geometry) = gsW1 ∧
      ∀ page ∈ pagesW1, ∀ row ∈ page.rows,
        row.placements.map Placement.column_index =
          List.range row.placements.length ∧
        ∀ p ∈ row.placements, p.column_index < cfgW1.columns :=
  C3_order_and_columns cfgW1 gsW1 pagesW1
    (by norm_num [PdfOutputParams.Valid, cfgW1, contentWidth, availableWidth,
      totalSpacing, PdfOutputParams.margin, PdfOutputParams.column_spacing,
      POINTS_PER_INCH, LETTER_PAGE_WIDTH])
    (by norm_num [cfgW1, gsW1, pagesW1, generateLayout, prepareAll,
      prepareProblem, packProblems, packLoop, packStep, packResolve,
      packResolve3, packResolve2, packResolve1, advanceRow, startNewPage,
      placeElement, flushPages, flushRows, initState, redistribute,
      redistributePage, shiftRowsCumulative, shiftRow, pageInitialTop,
      titleBlockHeight, columnWidth, availableWidth, contentWidth,
      totalSpacing, columnOffset, PdfOutputParams.margin,
      PdfOutputParams.problem_spacing, PdfOutputParams.column_spacing,
      POINTS_PER_INCH, LETTER_PAGE_WIDTH, LETTER_PAGE_HEIGHT,
      MIN_HEADER_LABEL_FONT_SIZE, HEADER_SPACING_MULTIPLIER, FLOAT_TOLERANCE,
      max_def, List.getLastD])

/-- C10: in the final layout every placement's prepared width is exactly
the column width, so the leftover-width right-alignment adjustment is zero
and `x_offset = margin + column_index * (column_width + column_spacing)`
exactly. -/
theorem C10_exact_x_offsets (c : PdfOutputParams) (gs : List SvgGeometry)
    (pages : List PageLayout) (hv : c.Valid)
    (hok : generateLayout c gs = Except.ok pages) :
    ∀ page ∈ pages, ∀ p ∈ pagePlacements page,
      p.prepared.scaled_width = columnWidth c ∧
      p.x_offset = c.margin +
        (p.column_index : ℚ) * (columnWidth c + c.column_spacing) := by
  obtain ⟨hwf, _, hprep⟩ := generateLayout_main hv hok
  intro page hpage p hp
  have hpmem : p ∈ allPlacements pages := by
    unfold allPlacements
    rw [List.mem_flatten]
    exact ⟨pagePlacements page, List.mem_map_of_mem _ hpage, hp⟩
  have hsw := (hprep p hpmem).1
  unfold pagePlacements at hp
  rw [List.mem_flatten] at hp
  obtain ⟨l, hl, hpin⟩ := hp
  rw [List.mem_map] at hl
  obtain ⟨r, hr, rfl⟩ := hl
  have hx := ((hwf page hpage).rows_wf r hr).xoff p hpin hsw
  exact ⟨hsw, by rw [hx]; rfl⟩

/-- Witness for C10 at the second placement of `pagesW1` (column 1): its
x offset is 72 + 1 * (234 + 0) = 306. -/
theorem C10_exact_x_offsets_witness :
    ((placementAt pagesW1 0 0 1).getD defaultPlacement).prepared.scaled_width
        = columnWidth cfgW1 ∧
      ((placementAt pagesW1 0 0 1).getD defaultPlacement).x_offset =
        cfgW1.margin +
          ((((placementAt pagesW1 0 0 1).getD
            defaultPlacement).column_index : ℕ) : ℚ) *
            (columnWidth cfgW1 + cfgW1.column_spacing) :=
  C10_exact_x_offsets cfgW1 gsW1 pagesW1
    (by norm_num [PdfOutputParams.Valid, cfgW1, contentWidth, availableWidth,
      totalSpacing, PdfOutputParams.margin, PdfOutputParams.column_spacing,
      POINTS_PER_INCH, LETTER_PAGE_WIDTH])
    (by norm_num [cfgW1, gsW1, pagesW1, generateLayout, prepareAll,
      prepareProblem, packProblems, packLoop, packStep, packResolve,
      packResolve3, packResolve2, packResolve1, advanceRow, startNewPage,
      placeElement, flushPages, flushRows, initState, redistribute,
      redistributePage, shiftRowsCumulative, shiftRow, pageInitialTop,
      titleBlockHeight, columnWidth, availableWidth, contentWidth,
      totalSpacing, columnOffset, PdfOutputParams.margin,
      PdfOutputParams.problem_spacing, PdfOutputParams.column_spacing,
      POINTS_PER_INCH, LETTER_PAGE_WIDTH, LETTER_PAGE_HEIGHT,
      MIN_HEADER_LABEL_FONT_SIZE, HEADER_SPACING_MULTIPLIER, FLOAT_TOLERANCE,
      max_def, List.getLastD])
    (pagesW1.getD 0 ⟨[]⟩) (by simp [pagesW1])
    ((placementAt pagesW1 0 0 1).getD defaultPlacement)
    (by norm_num [pagesW1, placementAt, defaultPlacement, pagePlacements])

/-- C4: in the final layout, any two placements on the same page that share
a column index and have distinct tops are separated by at least the
configured problem spacing — the upper one's bottom sits at least
`problem_spacing` above the lower one's top, so they never overlap. -/
theorem C4_no_overlap (c : PdfOutputParams) (gs : List SvgGeometry)
    (pages : List PageLayout) (hv : c.Valid)
    (hok : generateLayout c gs = Except.ok pages) :
    ∀ page ∈ pages, ∀ p ∈ pagePlacements page, ∀ q ∈ pagePlacements page,
      p.column_index = q.column_index → q.top < p.top →
      c.problem_spacing ≤ p.top - p.prepared.scaled_height - q.top := by
  obtain ⟨hwf, _, _⟩ := generateLayout_main hv hok
  intro page hpage p hp q hq _ ht
  exact PageWF.no_overlap (hwf page hpage) (valid_spacing hv) hp hq ht

/-- Witness for C4 on `cfgW4` / `gsW4`: the two placements share column 0;
the first's bottom is 720 - 117 = 603 and the second's top is 189, a gap of
414 ≥ 25.2 points of spacing. -/
theorem C4_no_overlap_witness :
    cfgW4.problem_spacing ≤
      ((placementAt pagesW4 0 0 0).getD defaultPlacement).top -
        ((placementAt pagesW4 0 0 0).getD
          defaultPlacement).prepared.scaled_height -
        ((placementAt pagesW4 0 1 0).getD defaultPlacement).top :=
  C4_no_overlap cfgW4 gsW4 pagesW4
    (by norm_num [PdfOutputParams.Valid, cfgW4, contentWidth, availableWidth,
      totalSpacing, PdfOutputParams.margin, PdfOutputParams.column_spacing,
      POINTS_PER_INCH, LETTER_PAGE_WIDTH])
    (by norm_num [cfgW4, gsW4, pagesW4, generateLayout, prepareAll,
      prepareProblem, packProblems, packLoop, packStep, packResolve,
      packResolve3, packResolve2, packResolve1, advanceRow, startNewPage,
      placeElement, flushPages, flushRows, initState, redistribute,
      redistributePage, shiftRowsCumulative, shiftRow, pageInitialTop,
      titleBlockHeight, columnWidth, availableWidth, contentWidth,
      totalSpacing, columnOffset, PdfOutputParams.margin,
      PdfOutputParams.problem_spacing, PdfOutputParams.column_spacing,
      POINTS_PER_INCH, LETTER_PAGE_WIDTH, LETTER_PAGE_HEIGHT,
      MIN_HEADER_LABEL_FONT_SIZE, HEADER_SPACING_MULTIPLIER, FLOAT_TOLERANCE,
      max_def, List.getLastD])
    (pagesW4.getD 0 ⟨[]⟩) (by simp [pagesW4])
    ((placementAt pagesW4 0 0 0).getD defaultPlacement)
    (by norm_num [pagesW4, placementAt, defaultPlacement, pagePlacements])
    ((placementAt pagesW4 0 1 0).getD defaultPlacement)
    (by norm_num [pagesW4, placementAt, defaultPlacement, pagePlacements])
    (by norm_num [pagesW4, placementAt, defaultPlacement])
    (by norm_num [pagesW4, placementAt, defaultPlacement])

/-- C9: whenever the answer key is enabled and at least one problem was
laid out, the answer section always starts on a fresh page regardless of
`answers_on_new_page`: after redistribution the final cursor sits at most
`margin + tolerance`, which is always strictly below the
`margin + 2 * answer_font_size` threshold (the font size is at least 6), so
the new-page branch of `_draw_answers` is always taken. -/
theorem C9_answer_key_fresh_page (c : PdfOutputParams)
    (gs : List SvgGeometry) (pages : List PageLayout) (hv : c.Valid)
    (hinc : c.include_answers = true) (hne : gs ≠ [])
    (hok : generateLayout c gs = Except.ok pages) :
    answersStartNewPage c (finalCursorY c pages) = true := by
  obtain ⟨hgs, ps, packed, hp, hq, rfl⟩ := generateLayout_ok_cases hok
  obtain ⟨hwf, hflat⟩ := packProblems_ok_inv hv.2.2.2.1 (valid_spacing hv) hq
  obtain ⟨hgeom, _⟩ := prepareAll_ok_spec hp
  have hps : ps ≠ [] := by
    intro hbad
    rw [hbad] at hgeom
    simp only [List.map_nil] at hgeom
    exact hne hgeom.symm
  have hpacked : packed ≠ [] := by
    intro hbad
    rw [hbad] at hflat
    simp only [allPlacements, List.map_nil, List.flatten_nil,
      List.map_nil] at hflat
    exact hps hflat.symm
  obtain ⟨pgLast, hpg⟩ :=
    Option.isSome_iff_exists.mp (List.getLast?_isSome.mpr hpacked)
  have hrows : pgLast.rows ≠ [] := (hwf pgLast (mem_of_getLast?_eq hpg)).nonempty
  obtain ⟨r, hr, hb⟩ := @redistributePage_lastBottom pgLast c.margin hrows
  have hlastmap : (redistribute c.margin packed).getLast? =
      some (redistributePage c.margin pgLast) := by
    unfold redistribute
    rw [List.getLast?_map, hpg]
    rfl
  have hcur : finalCursorY c (redistribute c.margin packed) =
      r.top - r.height := by
    unfold finalCursorY
    rw [hlastmap]
    dsimp only
    rw [hr]
  rw [hcur]
  unfold answersStartNewPage
  rw [Bool.or_eq_true]
  right
  rw [decide_eq_true_eq]
  have hfont := hv.2.2.2.2.2.1
  have htol : FLOAT_TOLERANCE < 12 := by norm_num [FLOAT_TOLERANCE]
  linarith

/-- Witness for C9 on `cfgW9` (answer key enabled, `answers_on_new_page`
false): the branch condition still evaluates to true. -/
theorem C9_answer_key_fresh_page_witness :
    answersStartNewPage cfgW9 (finalCursorY cfgW9 pagesW9) = true :=
  C9_answer_key_fresh_page cfgW9 gsW9 pagesW9
    (by norm_num [PdfOutputParams.Valid, cfgW9, contentWidth, availableWidth,
      totalSpacing, PdfOutputParams.margin, PdfOutputParams.column_spacing,
      POINTS_PER_INCH, LETTER_PAGE_WIDTH])
    rfl
    (by simp [gsW9])
    (by norm_num [cfgW9, gsW9, pagesW9, generateLayout, prepareAll,
      prepareProblem, packProblems, packLoop, packStep, packResolve,
      packResolve3, packResolve2, packResolve1, advanceRow, startNewPage,
      placeElement, flushPages, flushRows, initState, redistribute,
      redistributePage, shiftRowsCumulative, shiftRow, pageInitialTop,
      titleBlockHeight, columnWidth, availableWidth, contentWidth,
      totalSpacing, columnOffset, PdfOutputParams.margin,
      PdfOutputParams.problem_spacing, PdfOutputParams.column_spacing,
      POINTS_PER_INCH, LETTER_PAGE_WIDTH, LETTER_PAGE_HEIGHT,
      MIN_HEADER_LABEL_FONT_SIZE, HEADER_SPACING_MULTIPLIER, FLOAT_TOLERANCE,
      max_def, List.getLastD])

end Mathtest
